import Mathlib

/-!
Shallow embedding of the Markdown batch-cleaning tool (`script.py`) and
verification of the frozen claims about it.

Documents are modelled as `List Char`.  The Python regular-expression calls
are modelled by a small backtracking matcher (`matchRe`) specialised to the
constructs the script actually uses: literals, character classes, greedy and
lazy star over a character class, alternation and capture groups, with
Python's `re.sub` leftmost-scan / replace-all semantics (`pySub`).
Character classes model the ASCII behaviour of Python's `\s`, `\w` and `.`
(DOTALL off, so `.` excludes the newline).
-/

namespace MdCleaner

abbrev Str := List Char

/-- ASCII model of Python's whitespace class `\s` (and of `str.strip()`). -/
def pyWs (c : Char) : Bool :=
  c == ' ' || c == '\t' || c == '\n' || c == '\r' || c == Char.ofNat 11 || c == Char.ofNat 12

/-- `str.lstrip()`. -/
def lstripWs (l : Str) : Str := l.dropWhile pyWs

/-- `str.rstrip()`. -/
def rstripWs (l : Str) : Str := (l.reverse.dropWhile pyWs).reverse

/-- `str.strip()`. -/
def stripWs (l : Str) : Str := rstripWs (lstripWs l)

/-- `str.split(sep)` for a one-character separator: keeps empty pieces. -/
def splitOn (sep : Char) : Str → List Str
  | [] => [[]]
  | c :: cs =>
    if c = sep then [] :: splitOn sep cs
    else
      match splitOn sep cs with
      | [] => [[c]]
      | p :: ps => (c :: p) :: ps

/-- ASCII model of Python's word class `\w`. -/
def wordChar (c : Char) : Bool := c.isAlphanum || c == '_'

/-- Python's `.` with DOTALL off: any character but the newline. -/
def dotChar (c : Char) : Bool := c != '\n'

/-- The regex fragment actually used by the script: literals, classes,
sequencing, alternation, greedy/lazy star over a class, capture group. -/
inductive RE where
  | lit (c : Char)
  | cls (p : Char → Bool)
  | seq (a b : RE)
  | alt (a b : RE)
  | starCls (p : Char → Bool) (greedy : Bool)
  | grp (r : RE)

/-- First `some` among `f i` for `i` in the given order. -/
def firstSome {α : Type} : List Nat → (Nat → Option α) → Option α
  | [], _ => none
  | i :: is, f => (f i) <|> firstSome is f

/-- Backtracking matcher in continuation-passing style.  The continuation
receives the remaining input and the captures collected so far; alternatives
are tried in Python's preference order (left alternative first, greedy star
longest-first, lazy star shortest-first). -/
def matchRe {α : Type} : RE → Str → List Str → (Str → List Str → Option α) → Option α
  | .lit c, s, caps, k =>
    match s with
    | [] => none
    | x :: xs => if x = c then k xs caps else none
  | .cls p, s, caps, k =>
    match s with
    | [] => none
    | x :: xs => if p x then k xs caps else none
  | .seq a b, s, caps, k => matchRe a s caps (fun s1 c1 => matchRe b s1 c1 k)
  | .alt a b, s, caps, k => (matchRe a s caps k) <|> (matchRe b s caps k)
  | .starCls p greedy, s, caps, k =>
    let n := (s.takeWhile p).length
    let order := if greedy then (List.range (n + 1)).reverse else List.range (n + 1)
    firstSome order (fun i => k (s.drop i) caps)
  | .grp r, s, caps, k =>
    matchRe r s caps (fun s1 c1 => k s1 (c1 ++ [s.take (s.length - s1.length)]))

/-- Try to match `r` at the start of `s`; on success return the length of the
match and the captured groups. -/
def matchAt (r : RE) (s : Str) : Option (Nat × List Str) :=
  matchRe r s [] (fun rest caps => some (s.length - rest.length, caps))

/-- `re.sub` body: scan left to right, replace each non-overlapping match.
`fuel` bounds the recursion; every step consumes at least one character of
the input (all patterns in the script match at least one character). -/
def subAll (r : RE) (repl : List Str → Str) : Nat → Str → Str
  | 0, s => s
  | fuel + 1, s =>
    match matchAt r s with
    | some (len, caps) =>
      if len = 0 then
        match s with
        | [] => []
        | x :: xs => x :: subAll r repl fuel xs
      else
        repl caps ++ subAll r repl fuel (s.drop len)
    | none =>
      match s with
      | [] => []
      | x :: xs => x :: subAll r repl fuel xs

/-- `re.sub(pattern, repl, s)`. -/
def pySub (r : RE) (repl : List Str → Str) (s : Str) : Str :=
  subAll r repl (s.length + 1) s

/-- Captured group `i` (empty when absent). -/
def capGet (caps : List Str) (i : Nat) : Str := (caps[i]?).getD []

/-- Chain of literal characters. -/
def reChain (c : Char) : Str → RE
  | [] => .lit c
  | d :: ds => .seq (.lit c) (reChain d ds)

def starL (p : Char → Bool) : RE := .starCls p false
def starG (p : Char → Bool) : RE := .starCls p true

def reSeqs : List RE → RE → RE
  | [], r => r
  | a :: as, r => .seq a (reSeqs as r)

/-! ## The concrete patterns of `script.py` -/

/-- The backtick character. -/
def bq : Char := Char.ofNat 96

/-- Raster extensions of `remove_image_links` pattern 1 and 2:
`(jpg|jpeg|png|gif|bmp|webp)`, in Python's alternation order. -/
def rasterExts : RE :=
  .alt (reChain 'j' ['p', 'g'])
    (.alt (reChain 'j' ['p', 'e', 'g'])
      (.alt (reChain 'p' ['n', 'g'])
        (.alt (reChain 'g' ['i', 'f'])
          (.alt (reChain 'b' ['m', 'p']) (reChain 'w' ['e', 'b', 'p'])))))

/-- `(svg|ico|tiff)` of `remove_image_links` pattern 3. -/
def vectorExts : RE :=
  .alt (reChain 's' ['v', 'g'])
    (.alt (reChain 'i' ['c', 'o']) (reChain 't' ['i', 'f', 'f']))

/-- Pattern 1 of `remove_image_links`:
`!\[.*?\]\(.*?\.(jpg|jpeg|png|gif|bmp|webp).*?\)`. -/
def imgPat1 : RE :=
  reSeqs [.lit '!', .lit '[', starL dotChar, .lit ']', .lit '(',
          starL dotChar, .lit '.', .grp rasterExts, starL dotChar] (.lit ')')

/-- Pattern 2 of `remove_image_links`:
`<img.*?src=.*?\.(jpg|jpeg|png|gif|bmp|webp).*?>`. -/
def imgPat2 : RE :=
  reSeqs [.lit '<', .lit 'i', .lit 'm', .lit 'g', starL dotChar,
          .lit 's', .lit 'r', .lit 'c', .lit '=', starL dotChar,
          .lit '.', .grp rasterExts, starL dotChar] (.lit '>')

/-- Pattern 3 of `remove_image_links`: `!\[.*?\]\(.*?\.(svg|ico|tiff).*?\)`. -/
def imgPat3 : RE :=
  reSeqs [.lit '!', .lit '[', starL dotChar, .lit ']', .lit '(',
          starL dotChar, .lit '.', .grp vectorExts, starL dotChar] (.lit ')')

/-- `remove_empty_lines` pattern: `\n\s*\n\s*\n`. -/
def nlPat : RE :=
  reSeqs [.lit '\n', starG pyWs, .lit '\n', starG pyWs] (.lit '\n')

/-- `standardize_code_blocks` pattern 1: three backticks, `\s*(\w+)`. -/
def codePat1 : RE :=
  reSeqs [.lit bq, .lit bq, .lit bq, starG pyWs] (.grp (.seq (.cls wordChar) (starG wordChar)))

/-- `standardize_code_blocks` pattern 2: three backticks, `\s*\n`. -/
def codePat2 : RE :=
  reSeqs [.lit bq, .lit bq, .lit bq, starG pyWs] (.lit '\n')

/-- `fix_urls` pattern 1: `\!\[(.*?)\]\(\s*(.*?)\s*\)`. -/
def urlPat1 : RE :=
  reSeqs [.lit '!', .lit '[', .grp (starL dotChar), .lit ']', .lit '(',
          starG pyWs, .grp (starL dotChar), starG pyWs] (.lit ')')

/-- `fix_urls` pattern 2: `\[(.*?)\]\(\s*(.*?)\s*\)`. -/
def urlPat2 : RE :=
  reSeqs [.lit '[', .grp (starL dotChar), .lit ']', .lit '(',
          starG pyWs, .grp (starL dotChar), starG pyWs] (.lit ')')

/-- Replacement by the empty string. -/
def rEmpty : List Str → Str := fun _ => []

/-- Replacement `'\n\n'`. -/
def rNlNl : List Str → Str := fun _ => ['\n', '\n']

/-- Replacement `` '```\1' ``. -/
def rCode1 : List Str → Str := fun caps => bq :: bq :: bq :: capGet caps 0

/-- Replacement `` '```\n' ``. -/
def rCode2 : List Str → Str := fun _ => [bq, bq, bq, '\n']

/-- Replacement `'![\1](\2)'`. -/
def rUrl1 : List Str → Str := fun caps =>
  '!' :: '[' :: (capGet caps 0 ++ ']' :: '(' :: (capGet caps 1 ++ [')']))

/-- Replacement `'[\1](\2)'`. -/
def rUrl2 : List Str → Str := fun caps =>
  '[' :: (capGet caps 0 ++ ']' :: '(' :: (capGet caps 1 ++ [')']))

/-! ## Configuration

One boolean per `config.get(...)` key, with the `get` default as the
structure default (`remove_special_chars` is the only stage off by default,
mirroring both `config.get('remove_special_chars', False)` and `main`). -/

structure Config where
  backup : Bool := true
  remove_image_links : Bool := true
  remove_special_chars : Bool := false
  normalize_headings : Bool := true
  format_tables : Bool := true
  standardize_code_blocks : Bool := true
  fix_urls : Bool := true
  remove_trailing_whitespace : Bool := true
  remove_empty_lines : Bool := true
  add_final_newline : Bool := true

/-- The configuration built by `main` with no stage-disabling flags. -/
def defaultConfig : Config := {}

/-! ## Transformation stages -/

/-- `MarkdownCleaner.remove_image_links`. -/
def remove_image_links (cfg : Config) (content : Str) : Str :=
  if cfg.remove_image_links then
    pySub imgPat3 rEmpty (pySub imgPat2 rEmpty (pySub imgPat1 rEmpty content))
  else content

/-- The character class `[\x00-\x08\x0B\x0C\x0E-\x1F\x7F]` of
`remove_special_chars`. -/
def specialClass (c : Char) : Prop :=
  c.toNat ≤ 8 ∨ c.toNat = 11 ∨ c.toNat = 12 ∨ (14 ≤ c.toNat ∧ c.toNat ≤ 31) ∨ c.toNat = 127

instance (c : Char) : Decidable (specialClass c) := by
  unfold specialClass; infer_instance

/-- `MarkdownCleaner.remove_special_chars`: `re.sub` with a plain character
class and empty replacement deletes exactly the characters in the class. -/
def remove_special_chars (cfg : Config) (content : Str) : Str :=
  if cfg.remove_special_chars then
    content.filter (fun c => decide (¬ specialClass c))
  else content

/-- `line.strip().startswith('#')`. -/
def isHeadLine (l : Str) : Bool :=
  match stripWs l with
  | c :: _ => c == '#'
  | [] => false

/-- `re.sub(r'^#+\s*', '', line)`: anchored at the line start. -/
def subLeadingHash (l : Str) : Str :=
  match l with
  | '#' :: _ => (l.dropWhile (fun c => c == '#')).dropWhile pyWs
  | _ => l

/-- `re.sub(r'\s*#+\s*$', '', line)`: the unique match (if any) is the
longest suffix of the form `\s*#+\s*`. -/
def subTrailingHash (l : Str) : Str :=
  let r := l.reverse.dropWhile pyWs
  match r with
  | '#' :: _ => ((r.dropWhile (fun c => c == '#')).dropWhile pyWs).reverse
  | _ => l

/-- The per-line body of `normalize_headings`. -/
def normalizeHeadingLine (l : Str) : Str :=
  if isHeadLine l then
    let l2 := subTrailingHash (subLeadingHash l)
    let lvl := if '#' ∈ l2 then min (l2.count '#' + 1) 6 else 1
    List.replicate lvl '#' ++ ' ' :: stripWs (l2.filter (fun c => c != '#'))
  else l

/-- `MarkdownCleaner.normalize_headings`. -/
def normalize_headings (cfg : Config) (content : Str) : Str :=
  if cfg.normalize_headings then
    List.intercalate ['\n'] ((splitOn '\n' content).map normalizeHeadingLine)
  else content

/-! ## Table formatting -/

/-- `[cell.strip() for cell in line.split('|')[1:-1]]`. -/
def cellsOf (l : Str) : List Str :=
  (((splitOn '|' l).drop 1).dropLast).map stripWs

/-- One row's pass of the width loop: extend `col_widths` with `0` as
needed and take the max with each cell's length. -/
def updWidths : List Nat → List Str → List Nat
  | ws, [] => ws
  | [], c :: cs => c.length :: updWidths [] cs
  | w :: ws, c :: cs => max w c.length :: updWidths ws cs

/-- The `col_widths` computed over all rows of the block. -/
def colWidths (tableLines : List Str) : List Nat :=
  tableLines.foldl (fun ws l => updWidths ws (cellsOf l)) []

/-- One formatted cell: Python's `col_widths[i]` indexing is modelled by
`ws[i]?`, so an out-of-range access (an `IndexError`) surfaces as `none`. -/
def renderCell (ws : List Nat) (j i : Nat) (cell : Str) : Option Str :=
  (ws[i]?).map (fun w =>
    if j = 1 then List.replicate (w + 2) '-'
    else ' ' :: (cell ++ List.replicate (w - cell.length) ' ') ++ [' '])

/-- The inner `for i, cell in enumerate(cells)` loop. -/
def renderCells (ws : List Nat) (j : Nat) : Nat → List Str → Option (List Str)
  | _, [] => some []
  | i, c :: cs => do
    let out ← renderCell ws j i c
    let rest ← renderCells ws j (i + 1) cs
    pure (out :: rest)

/-- The outer `for j, line in enumerate(table_lines)` loop; each row is
re-rendered as `'|' + '|'.join(formatted_cells) + '|'`. -/
def renderRows (ws : List Nat) : Nat → List Str → Option (List Str)
  | _, [] => some []
  | j, l :: ls => do
    let cs ← renderCells ws j 0 (cellsOf l)
    let rest ← renderRows ws (j + 1) ls
    pure (('|' :: List.intercalate ['|'] cs ++ ['|']) :: rest)

/-- `MarkdownCleaner._format_table_lines`, with the fallible list indexing
made explicit (`none` would be Python's `IndexError`). -/
def formatTableLines? (tableLines : List Str) : Option (List Str) :=
  if tableLines.length < 2 then some tableLines
  else renderRows (colWidths tableLines) 0 tableLines

/-- Total version of `_format_table_lines` used by the pipeline (the claim
`C7` theorem shows the `none` case never happens). -/
def formatTableLines (tableLines : List Str) : List Str :=
  (formatTableLines? tableLines).getD tableLines

/-- `line.strip().startswith('|')`. -/
def pipeLead (l : Str) : Bool :=
  match stripWs l with
  | c :: _ => c == '|'
  | [] => false

/-- Lines 125–126 of `format_tables`: bracket a candidate lacking a leading
separator (after trim) with `'|' + line + '|'`. -/
def bracketLine (l : Str) : Str :=
  if '|' ∈ l ∧ pipeLead l = false then '|' :: l ++ ['|'] else l

/-- Loop state of `format_tables`: `result`, `table_lines`, `in_table`. -/
structure FtState where
  result : List Str
  tableLines : List Str
  inTable : Bool

/-- One iteration of the `for i, line in enumerate(lines)` loop of
`format_tables` (the index `i` is unused by the body). -/
def ftStep (st : FtState) (line : Str) : FtState :=
  let line := bracketLine line
  if '|' ∈ line then
    if st.inTable then { st with tableLines := st.tableLines ++ [line] }
    else { st with inTable := true, tableLines := [line] }
  else
    if st.inTable ∧ 2 ≤ st.tableLines.length then
      { result := st.result ++ formatTableLines st.tableLines ++ [line],
        tableLines := [], inTable := false }
    else { st with result := st.result ++ [line] }

/-- `MarkdownCleaner.format_tables`. -/
def format_tables (cfg : Config) (content : Str) : Str :=
  if cfg.format_tables then
    let st := (splitOn '\n' content).foldl ftStep ⟨[], [], false⟩
    let res :=
      if st.inTable ∧ 2 ≤ st.tableLines.length then st.result ++ formatTableLines st.tableLines
      else st.result
    List.intercalate ['\n'] res
  else content

/-! ## Remaining stages and the pipeline -/

/-- `MarkdownCleaner.standardize_code_blocks`. -/
def standardize_code_blocks (cfg : Config) (content : Str) : Str :=
  if cfg.standardize_code_blocks then
    pySub codePat2 rCode2 (pySub codePat1 rCode1 content)
  else content

/-- `MarkdownCleaner.fix_urls`. -/
def fix_urls (cfg : Config) (content : Str) : Str :=
  if cfg.fix_urls then
    pySub urlPat2 rUrl2 (pySub urlPat1 rUrl1 content)
  else content

/-- `MarkdownCleaner.remove_trailing_whitespace`. -/
def remove_trailing_whitespace (cfg : Config) (content : Str) : Str :=
  if cfg.remove_trailing_whitespace then
    List.intercalate ['\n'] ((splitOn '\n' content).map rstripWs)
  else content

/-- `MarkdownCleaner.remove_empty_lines`: the `\n\s*\n\s*\n → '\n\n'`
substitution applied twice, then `content.strip() + '\n'`. -/
def remove_empty_lines (cfg : Config) (content : Str) : Str :=
  if cfg.remove_empty_lines then
    stripWs (pySub nlPat rNlNl (pySub nlPat rNlNl content)) ++ ['\n']
  else content

/-- `MarkdownCleaner.add_final_newline`: `content.rstrip() + '\n'`. -/
def add_final_newline (cfg : Config) (content : Str) : Str :=
  if cfg.add_final_newline then rstripWs content ++ ['\n'] else content

/-- The `cleaning_functions` pipeline of `clean_file`, in source order. -/
def cleanContent (cfg : Config) (content : Str) : Str :=
  add_final_newline cfg
    (remove_empty_lines cfg
      (remove_trailing_whitespace cfg
        (fix_urls cfg
          (standardize_code_blocks cfg
            (format_tables cfg
              (normalize_headings cfg
                (remove_special_chars cfg
                  (remove_image_links cfg content))))))))

/-- The decision logic of `clean_file` on in-memory content: `none` means
no write happens (either the content is empty — the `if not content: return`
guard, reached before any stage runs — or the pipeline left it unchanged);
`some out` means `out` is written back. -/
def cleanFileWrite (cfg : Config) (content : Str) : Option Str :=
  if content = [] then none
  else
    let out := cleanContent cfg content
    if out = content then none else some out

/-! ## Predicates used by the claim statements -/

/-- The configuration with the special-character stripper opted in
(`--remove-special-chars`). -/
def cfgSpecial : Config := { remove_special_chars := true }

/-- `s` contains no occurrence of the blank-line-run pattern
`\n\s*\n\s*\n` at any position (the scan mirrors `re`'s position-by-position
search). -/
def noRunB : Str → Bool
  | [] => true
  | c :: cs => (matchAt nlPat (c :: cs)).isNone && noRunB cs

/-- `l` ends with exactly one newline: its last character is `'\n'` and the
character before it (if any) is not. -/
def endsOneNl (l : Str) : Prop :=
  l.getLast? = some '\n' ∧ l.dropLast.getLast? ≠ some '\n'

instance (l : Str) : Decidable (endsOneNl l) := by
  unfold endsOneNl; infer_instance

/-- Failing input of claim C1: a minimal three-row table. -/
def c1doc : Str := "|A|\n|-|\n|1|".data

/-- Failing input of claim C4: a one-line separator run, a plain line, then
a two-line separator run. -/
def c4doc : Str := "a|b\nx\nc|d\ne|f".data

/-! ## Helper lemmas -/

theorem updWidths_length : ∀ (ws : List Nat) (cs : List Str),
    (updWidths ws cs).length = max ws.length cs.length
  | ws, [] => by cases ws <;> simp [updWidths]
  | [], c :: cs => by simp [updWidths, updWidths_length [] cs]
  | w :: ws, c :: cs => by
    simp [updWidths, updWidths_length ws cs]
    omega

theorem foldl_widths_le (rows : List Str) : ∀ ws : List Nat,
    ws.length ≤ (rows.foldl (fun ws l => updWidths ws (cellsOf l)) ws).length := by
  induction rows with
  | nil => intro ws; simp
  | cons r rs ih =>
    intro ws
    refine le_trans ?_ (ih (updWidths ws (cellsOf r)))
    rw [updWidths_length]
    omega

theorem cells_le_foldl (rows : List Str) : ∀ (ws : List Nat) (l : Str), l ∈ rows →
    (cellsOf l).length ≤ (rows.foldl (fun ws l => updWidths ws (cellsOf l)) ws).length := by
  induction rows with
  | nil => intro ws l hl; simp at hl
  | cons r rs ih =>
    intro ws l hl
    rcases List.mem_cons.mp hl with h | h
    · subst h
      refine le_trans ?_ (foldl_widths_le rs (updWidths ws (cellsOf l)))
      rw [updWidths_length]
      omega
    · exact ih _ _ h

theorem renderCells_isSome (ws : List Nat) (j : Nat) : ∀ (cs : List Str) (i : Nat),
    i + cs.length ≤ ws.length → ∃ out, renderCells ws j i cs = some out := by
  intro cs
  induction cs with
  | nil => intro i _; exact ⟨[], rfl⟩
  | cons c cs ih =>
    intro i h
    have hi : i < ws.length := by simp at h; omega
    obtain ⟨rest, hrest⟩ := ih (i + 1) (by simp at h ⊢; omega)
    cases hcell : renderCell ws j i c with
    | none => simp [renderCell, List.getElem?_eq_getElem hi] at hcell
    | some v => exact ⟨v :: rest, by simp [renderCells, hcell, hrest]⟩

theorem renderRows_exists (ws : List Nat) : ∀ (rows : List Str) (j : Nat),
    (∀ l ∈ rows, (cellsOf l).length ≤ ws.length) → ∃ out, renderRows ws j rows = some out := by
  intro rows
  induction rows with
  | nil => intro j _; exact ⟨[], rfl⟩
  | cons r rs ih =>
    intro j h
    obtain ⟨cs, hcs⟩ := renderCells_isSome ws j (cellsOf r) 0 (by simpa using h r (by simp))
    obtain ⟨rest, hrest⟩ := ih (j + 1) (fun l hl => h l (by simp [hl]))
    exact ⟨('|' :: (List.intercalate ['|'] cs ++ ['|'])) :: rest,
      by simp [renderRows, hcs, hrest]⟩

/-! ## Claim theorems -/

/-- Claim C1 (code-bug evidence).  The full default-enabled pipeline is not
idempotent: on the minimal table `"|A|\n|-|\n|1|"` one application yields
`"| A |\n|---|\n| 1 |\n"`, but a second application widens every column by
two, because the dash separator row written by the first pass (width + 2
dashes) takes part in the next pass's column-width maximum.  The claim
requires the second application to change nothing. -/
theorem clean_second_pass_widens_table :
    cleanContent defaultConfig c1doc = "| A |\n|---|\n| 1 |\n".data ∧
    cleanContent defaultConfig (cleanContent defaultConfig c1doc) =
      "| A   |\n|-----|\n| 1   |\n".data ∧
    cleanContent defaultConfig (cleanContent defaultConfig c1doc) ≠
      cleanContent defaultConfig c1doc := by decide

/-- Claim C4 (code-bug evidence).  A maximal run consisting of exactly one
separator-containing line is not emitted verbatim at its position:
`format_tables` keeps the one-line run pending across the following
non-separator line, merges it with the next run into a single block emitted
later (with the second run's first line rewritten into the dash row), and at
end of document drops a pending one-line run altogether. -/
theorem one_line_run_not_emitted_verbatim :
    format_tables defaultConfig c4doc = "x\n| a | b |\n|---|---|\n| e | f |".data ∧
    format_tables defaultConfig "x\na|b".data = "x".data := by decide

/-- Claim C7.  `_format_table_lines` is total: the `col_widths[i]` list
indexing (the only operation of the stage pipeline that could raise) is
always in range, for every block, ragged rows included, so the
option-valued embedding always returns `some` and the pipeline's total
version agrees with it.  The remaining stages are total by construction. -/
theorem format_table_lines_total (tableLines : List Str) :
    ∃ out, formatTableLines? tableLines = some out ∧ formatTableLines tableLines = out := by
  have hmain : ∃ out, formatTableLines? tableLines = some out := by
    unfold formatTableLines?
    by_cases h : tableLines.length < 2
    · exact ⟨tableLines, by simp [h]⟩
    · obtain ⟨out, hout⟩ :=
        renderRows_exists (colWidths tableLines) tableLines 0
          (fun l hl => cells_le_foldl tableLines [] l hl)
      exact ⟨out, by simp [h, hout]⟩
  obtain ⟨out, hout⟩ := hmain
  exact ⟨out, hout, by simp [formatTableLines, hout]⟩

/-- Claim C10.  When a file's content is empty (including the empty content
`read_file` yields when both decode attempts fail), `clean_file` returns at
the `if not content` guard: no transformation stage runs and no write
happens, so the empty document is not turned into a single newline by the
final-newline stage. -/
theorem clean_file_skips_empty_content (cfg : Config) : cleanFileWrite cfg [] = none := by
  simp [cleanFileWrite]

/-- Claim C2 counterexample.  The heading normalizer maps `"## Title ##"`
to `"# Title"`, not `"## Title"`: both marker runs are stripped and the
level is recomputed from the remaining embedded markers (none), giving 1. -/
theorem heading_example_counterexample :
    normalize_headings defaultConfig "## Title ##".data ≠ "## Title".data ∧
    normalize_headings defaultConfig "## Title ##".data = "# Title".data := by decide

/-- Claim C3 counterexample.  With first-row cells `["A","BB","C"]` and
third-row cells `["1","22","3"]` but a long second-row cell, the computed
column widths are `[4,2,1]`, not `[1,2,1]`: the width maximum ranges over
all rows, the second included. -/
theorem table_widths_counterexample :
    cellsOf "|A|BB|C|".data = [ "A".data, "BB".data, "C".data ] ∧
    cellsOf "|1|22|3|".data = [ "1".data, "22".data, "3".data ] ∧
    colWidths [ "|A|BB|C|".data, "|xxxx|y|z|".data, "|1|22|3|".data ] ≠ [1, 2, 1] := by decide

/-- Claim C5 counterexample.  A row that starts with the separator but lacks
a trailing separator is not bracketed, and the text after its last written
separator is discarded: in `"|a|b\n|c|d\nz"` the cells `b` and `d` vanish
from the formatted output. -/
theorem missing_trailing_sep_counterexample :
    format_tables defaultConfig "|a|b\n|c|d\nz".data = "| a |\n|---|\nz".data ∧
    ('b' ∈ "|a|b\n|c|d\nz".data) ∧
    ('b' ∉ format_tables defaultConfig "|a|b\n|c|d\nz".data) := by decide

/-- Claim C6 counterexample.  The blank-line-collapse stage is not the
identity on documents with no blank-line run: `"a"` gains a final newline
(`content.strip() + '\n'`), and a run of blank lines at the document edge is
removed entirely rather than collapsed to exactly one blank line. -/
theorem blank_collapse_counterexample :
    remove_empty_lines defaultConfig "a".data ≠ "a".data ∧
    remove_empty_lines defaultConfig "a".data = "a\n".data ∧
    remove_empty_lines defaultConfig "\n\n\n\na".data = "a\n".data := by decide

/-- Claim C8 counterexample.  The carriage return (0x0D) is a non-printable
control byte distinct from newline and tab, yet the special-character
stripper leaves it in place: the class `[\x00-\x08\x0B\x0C\x0E-\x1F\x7F]`
skips 0x0D. -/
theorem special_chars_cr_counterexample :
    ('\r' ∈ "a\rb".data) ∧ ('\r').toNat ≤ 31 ∧ '\r' ≠ '\n' ∧ '\r' ≠ '\t' ∧
    remove_special_chars cfgSpecial "a\rb".data = "a\rb".data := by decide

/-- Claim C9 counterexample.  `"a \n"` already ends with exactly one
newline, yet the final-newline stage changes it: `content.rstrip() + '\n'`
also deletes the space before the newline. -/
theorem final_newline_counterexample :
    endsOneNl ("a \n".data) ∧
    add_final_newline defaultConfig "a \n".data ≠ "a \n".data := by decide

/-- Claim C2 as amended.  `"## Title ##"` normalizes to `"# Title"` (all
leading and trailing marker runs are stripped and the level is recomputed as
embedded-marker count + 1); `"#Title"` → `"# Title"`; and every heading line
whose recomputed level would exceed 6 (at least 6 markers embedded in the
stripped text) is emitted at exactly level 6. -/
theorem heading_normalizer_amended :
    normalize_headings defaultConfig "## Title ##".data = "# Title".data ∧
    normalize_headings defaultConfig "#Title".data = "# Title".data ∧
    ∀ l : Str, isHeadLine l = true →
      6 ≤ (subTrailingHash (subLeadingHash l)).count '#' →
      normalizeHeadingLine l =
        List.replicate 6 '#' ++
          ' ' :: stripWs ((subTrailingHash (subLeadingHash l)).filter (fun c => c != '#')) := by
  refine ⟨by decide, by decide, ?_⟩
  intro l hhead h6
  unfold normalizeHeadingLine
  rw [if_pos hhead]
  have hmem : '#' ∈ subTrailingHash (subLeadingHash l) := by
    refine List.count_pos_iff.mp ?_
    omega
  dsimp only
  rw [if_pos hmem, Nat.min_eq_right (by omega)]

/-- Witness for `heading_normalizer_amended`: the heading line
`"#a######b"` has 6 embedded markers after stripping and is emitted at
level 6 as `"###### ab"`. -/
theorem heading_normalizer_amended_witness :
    normalizeHeadingLine "#a######b".data = "###### ab".data :=
  (heading_normalizer_amended.2.2 ("#a######b".data) (by decide) (by decide)).trans (by decide)

/-- Claim C8 as amended.  The special-character stripper removes every
control byte (code ≤ 31 or 127) except exactly three: tab (9), newline (10)
and carriage return (13), whose occurrences it preserves. -/
theorem special_chars_amended (content : Str) (c : Char)
    (hctl : c.toNat ≤ 31 ∨ c.toNat = 127) :
    (c.toNat ≠ 9 ∧ c.toNat ≠ 10 ∧ c.toNat ≠ 13 →
      c ∉ remove_special_chars cfgSpecial content) ∧
    (c.toNat = 9 ∨ c.toNat = 10 ∨ c.toNat = 13 →
      (remove_special_chars cfgSpecial content).count c = content.count c) := by
  constructor
  · rintro ⟨h9, h10, h13⟩ hmem
    unfold remove_special_chars at hmem
    rw [if_pos (by decide)] at hmem
    have hkeep := (List.mem_filter.mp hmem).2
    have hcls : specialClass c := by unfold specialClass; omega
    simp [hcls] at hkeep
  · intro h
    unfold remove_special_chars
    rw [if_pos (by decide)]
    refine List.count_filter ?_
    have hcls : ¬ specialClass c := by unfold specialClass; omega
    simp [hcls]

/-- Witness for `special_chars_amended`: the stripper removes `\x01` but
keeps every carriage-return occurrence. -/
theorem special_chars_amended_witness :
    (Char.ofNat 1 ∉ remove_special_chars cfgSpecial ['a', Char.ofNat 1, 'b']) ∧
    (remove_special_chars cfgSpecial "a\rb".data).count '\r' = ("a\rb".data).count '\r' :=
  ⟨(special_chars_amended ['a', Char.ofNat 1, 'b'] (Char.ofNat 1) (by decide)).1 (by decide),
   (special_chars_amended ("a\rb".data) '\r' (by decide)).2 (by decide)⟩

theorem splitOn_ne_nil (sep : Char) (l : Str) : splitOn sep l ≠ [] := by
  induction l with
  | nil => simp [splitOn]
  | cons c cs ih =>
    by_cases h : c = sep
    · simp [splitOn, h]
    · simp only [splitOn, if_neg h]
      cases splitOn sep cs <;> simp

theorem splitOn_cons_sep (sep : Char) (l : Str) :
    splitOn sep (sep :: l) = [] :: splitOn sep l := by
  simp [splitOn]

theorem splitOn_append_sep (sep : Char) (l : Str) :
    splitOn sep (l ++ [sep]) = splitOn sep l ++ [[]] := by
  induction l with
  | nil => simp [splitOn]
  | cons c cs ih =>
    by_cases h : c = sep
    · subst h
      rw [List.cons_append, splitOn_cons_sep, splitOn_cons_sep, ih]
      simp
    · obtain ⟨p, ps, hps⟩ : ∃ p ps, splitOn sep cs = p :: ps := by
        cases hsp : splitOn sep cs with
        | nil => exact absurd hsp (splitOn_ne_nil sep cs)
        | cons p ps => exact ⟨p, ps, rfl⟩
      rw [List.cons_append]
      simp only [splitOn, if_neg h, ih, hps]
      simp

/-- Cells of a fully bracketed line `'|' + l + '|'`: exactly the pieces of
`l` split at the separator, trimmed — so the texts before the first and
after the last separator of `l` survive as cells. -/
theorem cellsOf_bracket (l : Str) :
    cellsOf ('|' :: l ++ ['|']) = (splitOn '|' l).map stripWs := by
  unfold cellsOf
  rw [show ('|' :: l ++ ['|'] : Str) = '|' :: (l ++ ['|']) from rfl,
    splitOn_cons_sep, splitOn_append_sep]
  simp

/-- Claim C5 as amended.  Only a candidate whose trimmed form does not
start with the separator is implicitly bracketed on both ends (so the texts
before its first and after its last written separator are preserved as
cells); a candidate that starts with the separator is left as written, even
when it lacks a trailing separator — there the text after the last
separator is discarded by the `[1:-1]` cell slice. -/
theorem bracket_amended :
    (∀ l : Str, '|' ∈ l → pipeLead l = false →
      bracketLine l = '|' :: l ++ ['|'] ∧
      cellsOf (bracketLine l) = (splitOn '|' l).map stripWs) ∧
    (∀ l : Str, pipeLead l = true → bracketLine l = l) := by
  constructor
  · intro l hmem hlead
    have hbr : bracketLine l = '|' :: l ++ ['|'] := by
      unfold bracketLine
      rw [if_pos ⟨hmem, hlead⟩]
    exact ⟨hbr, by rw [hbr, cellsOf_bracket]⟩
  · intro l hlead
    unfold bracketLine
    rw [if_neg]
    rintro ⟨-, hfalse⟩
    rw [hlead] at hfalse
    exact absurd hfalse (by decide)

/-- Witness for `bracket_amended`: the shorthand row `"a|b"` is bracketed
into `"|a|b|"` and keeps both `a` and `b` as cells, while `"|a|b"` is left
unbracketed. -/
theorem bracket_amended_witness :
    cellsOf (bracketLine ("a|b".data)) = [ "a".data, "b".data ] ∧
    bracketLine ("|a|b".data) = "|a|b".data :=
  ⟨((bracket_amended.1 ("a|b".data) (by decide) (by decide)).2).trans (by decide),
   bracket_amended.2 ("|a|b".data) (by decide)⟩

theorem subAll_of_noRun (repl : List Str → Str) :
    ∀ (fuel : Nat) (s : Str), noRunB s = true → subAll nlPat repl fuel s = s := by
  intro fuel
  induction fuel with
  | zero => intro s _; rfl
  | succ n ih =>
    intro s h
    cases s with
    | nil =>
      have h0 : matchAt nlPat [] = none := by decide
      simp [subAll, h0]
    | cons c cs =>
      have h12 := h
      unfold noRunB at h12
      rw [Bool.and_eq_true] at h12
      have h1 : matchAt nlPat (c :: cs) = none := by
        rcases h12 with ⟨h1, -⟩
        exact Option.eq_none_iff_forall_not_mem.mpr
          (fun a ha => by simp [Option.isNone_iff_eq_none.mp h1] at ha)
      simp [subAll, h1, ih cs h12.2]

/-- Claim C6 as amended.  A document with no occurrence of the blank-run
pattern, no leading whitespace, and exactly one trailing newline passes the
stage unchanged; an interior run of three or more blank lines collapses to
exactly one blank line; a blank run at the document edge is removed
entirely (together with surrounding whitespace) rather than kept as one
blank line, and one trailing newline is enforced. -/
theorem blank_collapse_amended :
    (∀ s : Str, noRunB s = true → stripWs s ++ ['\n'] = s →
      remove_empty_lines defaultConfig s = s) ∧
    remove_empty_lines defaultConfig "a\n\n\n\nb".data = "a\n\nb\n".data ∧
    remove_empty_lines defaultConfig "\n\n\n\na".data = "a\n".data := by
  refine ⟨?_, by decide, by decide⟩
  intro s h1 h2
  unfold remove_empty_lines pySub
  rw [if_pos (by decide)]
  rw [subAll_of_noRun rNlNl (s.length + 1) s h1]
  rw [subAll_of_noRun rNlNl (s.length + 1) s h1]
  exact h2

/-- Witness for `blank_collapse_amended`: `"a\n"` has no blank run and is a
fixed point of the stage. -/
theorem blank_collapse_amended_witness :
    remove_empty_lines defaultConfig "a\n".data = "a\n".data :=
  blank_collapse_amended.1 ("a\n".data) (by decide) (by decide)

theorem head?_dropWhile_not {α : Type} (p : α → Bool) (m : List α) (x : α)
    (h : (m.dropWhile p).head? = some x) : p x = false := by
  induction m with
  | nil => simp [List.dropWhile] at h
  | cons a as ih =>
    by_cases hp : p a
    · rw [List.dropWhile_cons_of_pos hp] at h
      exact ih h
    · rw [List.dropWhile_cons_of_neg hp] at h
      simp at h
      rw [← h]
      exact Bool.not_eq_true _ |>.mp hp

theorem getLast?_rstripWs (l : Str) (c : Char)
    (h : (rstripWs l).getLast? = some c) : pyWs c = false := by
  unfold rstripWs at h
  rw [List.getLast?_reverse] at h
  exact head?_dropWhile_not pyWs l.reverse c h

/-- Claim C9 as amended.  Every output of the final-newline stage ends with
exactly one newline (so documents missing a trailing newline or ending in
blank lines are repaired); but the stage leaves a document unchanged only
when it equals its own right-strip plus a single newline — a document that
already ends with exactly one newline can still change if other trailing
whitespace precedes that newline. -/
theorem final_newline_amended :
    (∀ s : Str, endsOneNl (add_final_newline defaultConfig s)) ∧
    (∀ s : Str, rstripWs s ++ ['\n'] = s → add_final_newline defaultConfig s = s) := by
  constructor
  · intro s
    unfold add_final_newline
    rw [if_pos (by decide)]
    constructor
    · exact List.getLast?_concat _
    · rw [List.dropLast_concat]
      intro hcontra
      have := getLast?_rstripWs s '\n' hcontra
      simp [pyWs] at this
  · intro s h
    unfold add_final_newline
    rw [if_pos (by decide)]
    exact h

/-- Witness for `final_newline_amended`: the stage output on `"x"` ends in
exactly one newline, and `"a\n"` is a fixed point. -/
theorem final_newline_amended_witness :
    endsOneNl (add_final_newline defaultConfig ("x".data)) ∧
    add_final_newline defaultConfig "a\n".data = "a\n".data :=
  ⟨final_newline_amended.1 ("x".data),
   final_newline_amended.2 ("a\n".data) (by decide)⟩

/-- Claim C3 as amended.  For a three-row block whose first row has cells
`["A","BB","C"]` and whose third has `["1","22","3"]`, the widths are
`[1,2,1]` and the second row is rewritten as width+2 dashes per column
provided the second row also has exactly three cells of trimmed lengths at
most 1, 2 and 1 — within that bound its content is irrelevant; outside it
the second row's cells enter the width maximum and change the result. -/
theorem table_second_row_amended (r1 r2 r3 a b c : Str)
    (h1 : cellsOf r1 = [ "A".data, "BB".data, "C".data ])
    (h3 : cellsOf r3 = [ "1".data, "22".data, "3".data ])
    (h2 : cellsOf r2 = [a, b, c])
    (ha : a.length ≤ 1) (hb : b.length ≤ 2) (hc : c.length ≤ 1) :
    formatTableLines? [r1, r2, r3] =
      some [ "| A | BB | C |".data, "|---|----|---|".data, "| 1 | 22 | 3 |".data ] := by
  have e1 : updWidths [] (cellsOf r1) = [1, 2, 1] := by rw [h1]; decide
  have e2 : updWidths [1, 2, 1] (cellsOf r2) = [1, 2, 1] := by
    rw [h2]
    simp [updWidths]
    omega
  have e3 : updWidths [1, 2, 1] (cellsOf r3) = [1, 2, 1] := by rw [h3]; decide
  have hw : colWidths [r1, r2, r3] = [1, 2, 1] := by
    unfold colWidths
    simp only [List.foldl]
    rw [e1, e2, e3]
  have hr1 : renderCells [1, 2, 1] 0 0 (cellsOf r1) =
      some [ " A ".data, " BB ".data, " C ".data ] := by
    rw [h1]; decide
  have hr2 : renderCells [1, 2, 1] 1 0 (cellsOf r2) =
      some [ "---".data, "----".data, "---".data ] := by
    rw [h2]
    simp [renderCells, renderCell]
  have hr3 : renderCells [1, 2, 1] 2 0 (cellsOf r3) =
      some [ " 1 ".data, " 22 ".data, " 3 ".data ] := by
    rw [h3]; decide
  unfold formatTableLines?
  rw [if_neg (by simp), hw]
  simp only [renderRows]
  norm_num
  rw [hr1, hr2, hr3]
  simp only [Option.bind_some]
  decide

/-- Witness for `table_second_row_amended`: the canonical separator row
`"|-|--|-|"` satisfies the cell bounds, and the block formats to the
predicted output. -/
theorem table_second_row_amended_witness :
    formatTableLines? [ "|A|BB|C|".data, "|-|--|-|".data, "|1|22|3|".data ] =
      some [ "| A | BB | C |".data, "|---|----|---|".data, "| 1 | 22 | 3 |".data ] :=
  table_second_row_amended ("|A|BB|C|".data) ("|-|--|-|".data) ("|1|22|3|".data)
    ("-".data) ("--".data) ("-".data)
    (by decide) (by decide) (by decide) (by decide) (by decide) (by decide)

end MdCleaner
